import Mathlib

/-!
Shallow embedding of `api/recommend.js` from pawapp-recs: the in-memory
embedding cache (`fetchItems`), the cosine-similarity scorer (`cosine`), the
ranking step (`recommendations`), and the post-authentication request
pipeline (`handlerPipeline`), together with theorems settling the frozen
claims about them.

JavaScript numbers are idealized as exact rationals extended with `NaN`:
arithmetic is exact instead of IEEE-754 double rounding, and `Math.sqrt` is
modelled exactly where the square root is rational.  Every theorem below is
insensitive to the value `Math.sqrt` takes at arguments whose root is
irrational (see `jsSqrt`).
-/

namespace PawRecs

/-- JavaScript numbers, idealized: an exact rational value or `NaN`.
`undefined` never flows into the model directly: the only place the source
reads a possibly-undefined value is an out-of-range array index, which it
immediately feeds into arithmetic, where `undefined` behaves as `NaN`. -/
inductive JsNum where
  | nan : JsNum
  | val : ℚ → JsNum
  deriving DecidableEq, Repr

/-- JS `+` on numbers: `NaN` propagates. -/
def jsAdd : JsNum → JsNum → JsNum
  | .val a, .val b => .val (a + b)
  | _, _ => .nan

/-- JS `*` on numbers: `NaN` propagates (including `0 * NaN = NaN`). -/
def jsMul : JsNum → JsNum → JsNum
  | .val a, .val b => .val (a * b)
  | _, _ => .nan

/-- JS `-` on numbers: `NaN` propagates. -/
def jsSub : JsNum → JsNum → JsNum
  | .val a, .val b => .val (a - b)
  | _, _ => .nan

/-- JS `/` on numbers.  Division by zero yields an infinity (or `NaN` for
`0/0`) in JS; infinities are not representable here, so that case maps to
`nan`.  In the translated code the divisor is always the `|| 1e-12`-guarded
denominator, which is never zero, so the branch is unreachable there. -/
def jsDiv : JsNum → JsNum → JsNum
  | .val a, .val b => if b = 0 then .nan else .val (a / b)
  | _, _ => .nan

/-- First rational `r ≤ n` with `r * r = n`, if `n` is a perfect square.
Linear search keeps the definition structurally recursive so the kernel can
evaluate it on the concrete inputs used below. -/
def perfectSqrt (n : ℕ) : Option ℕ :=
  (List.range (n + 1)).find? (fun r => r * r == n)

/-- Exact square root of a nonnegative rational, when it is rational:
both the numerator and the denominator must be perfect squares. -/
def ratSqrt (q : ℚ) : Option ℚ :=
  if q < 0 then none
  else
    match perfectSqrt q.num.toNat, perfectSqrt q.den with
    | some rn, some rd => some ((rn : ℚ) / (rd : ℚ))
    | _, _ => none

/-- `Math.sqrt`, idealized.  Negative arguments and `NaN` give `NaN`, as in
JS.  Arguments whose exact square root is irrational are not representable
in `JsNum`; they are mapped to `nan`.  This is the single idealization of
the model: every theorem below either never evaluates `jsSqrt` away from a
perfect square, or uses the result only in a position where any value of
the branch (numeric or `nan`) yields the same outcome. -/
def jsSqrt : JsNum → JsNum
  | .nan => .nan
  | .val q =>
    match ratSqrt q with
    | some r => .val r
    | none => .nan

/-- JS truthiness of a number: `0` and `NaN` are falsy. -/
def jsTruthy : JsNum → Bool
  | .nan => false
  | .val q => q != 0

/-- JS `||` on numbers: the first operand if truthy, else the second. -/
def jsOr (a b : JsNum) : JsNum := if jsTruthy a then a else b

/-- JS `<=` on numbers: any comparison involving `NaN` is false. -/
def jsLeb : JsNum → JsNum → Bool
  | .val a, .val b => a ≤ b
  | _, _ => false

/-- The `1e-12` fallback denominator from `cosine`. -/
def tinyDen : JsNum := .val (1 / 1000000000000)

/-- The accumulation loop of `cosine` (recommend.js lines 129–134):
`for (let i = 0; i < a.length; i++) { dot += a[i]*b[i]; magA += a[i]*a[i];
magB += b[i]*b[i] }`.  Iteration is driven by `a`; reading `b` past its end
gives `undefined`, which behaves as `NaN` in the arithmetic, hence the
`headD .nan`. -/
def cosineLoop : List JsNum → List JsNum → JsNum → JsNum → JsNum → JsNum × JsNum × JsNum
  | [], _, dot, magA, magB => (dot, magA, magB)
  | a :: as, bs, dot, magA, magB =>
    cosineLoop as bs.tail (jsAdd dot (jsMul a (bs.headD .nan)))
      (jsAdd magA (jsMul a a)) (jsAdd magB (jsMul (bs.headD .nan) (bs.headD .nan)))

/-- `cosine` (recommend.js lines 128–136):
`dot / (Math.sqrt(magA) * Math.sqrt(magB) || 1e-12)`. -/
def cosine (a b : List JsNum) : JsNum :=
  let s := cosineLoop a b (.val 0) (.val 0) (.val 0)
  jsDiv s.1 (jsOr (jsMul (jsSqrt s.2.1) (jsSqrt s.2.2)) tinyDen)

/-- A cached embedding record: `{ id: child.key, embedding: d.embedding }`
(recommend.js line 22). -/
structure EmbItem where
  id : String
  embedding : List JsNum
  deriving DecidableEq, Repr

/-- A scored candidate: `{ id: item.id, score: cosine(qEmb, item.embedding) }`
(recommend.js line 139). -/
structure Scored where
  id : String
  score : JsNum
  deriving DecidableEq, Repr

/-- ES2019 `SortCompare` applied to the comparator
`(a, b) => b.score - a.score` (recommend.js line 140): the comparator's
numeric result, with `NaN` mapped to `+0`; only its sign is consulted. -/
def sortCompare (x y : Scored) : ℚ :=
  match jsSub y.score x.score with
  | .nan => 0
  | .val v => v

/-- Stable insertion of `x` (an element occurring earlier in the input than
everything in `l`): `x` is placed before the first `y` it need not follow,
i.e. the first `y` with `sortCompare x y ≤ 0`. -/
def insertScored (x : Scored) : List Scored → List Scored
  | [] => [x]
  | y :: ys => if sortCompare x y ≤ 0 then x :: y :: ys else y :: insertScored x ys

/-- `Array.prototype.sort` with the comparator `(a, b) => b.score - a.score`
(recommend.js line 140).  ES2019 requires the sort to be stable; for a
consistent comparator the stable descending order is unique and this
insertion sort produces it.  Where the comparator is inconsistent (a `NaN`
score), ECMAScript leaves the order implementation-defined and this model
fixes one choice. -/
def sortByScoreDesc : List Scored → List Scored
  | [] => []
  | x :: xs => insertScored x (sortByScoreDesc xs)

/-- The scoring step `items.map(item => ({ id: item.id, score: cosine(qEmb,
item.embedding) }))` (recommend.js line 139). -/
def scoredList (qEmb : List JsNum) (items : List EmbItem) : List Scored :=
  items.map fun it => ⟨it.id, cosine qEmb it.embedding⟩

/-- The ranking step (recommend.js lines 138–142):
score every item, sort descending, `slice(0, 5)`, keep only the ids. -/
def recommendations (qEmb : List JsNum) (items : List EmbItem) : List String :=
  ((sortByScoreDesc (scoredList qEmb items)).take 5).map Scored.id

/-- Number of candidates whose embedding dimension matches the query's.
Modelled from the spec's notion of dimension-valid candidates (§4.3); the
source has no corresponding computation, which is what several claims below
turn on. -/
def validCandidateCount (qEmb : List JsNum) (items : List EmbItem) : ℕ :=
  (items.filter fun it => it.embedding.length == qEmb.length).length

/-- The module-level cache `{ itemsByType: {}, lastFetch: 0 }`
(recommend.js line 7).  The object `itemsByType` is modelled as an
association list in key-insertion order. -/
structure CacheState where
  itemsByType : List (String × List EmbItem)
  lastFetch : ℕ
  deriving DecidableEq, Repr

/-- `CACHE_TTL = 5 * 60 * 1000` (recommend.js line 8), in milliseconds. -/
def CACHE_TTL : ℕ := 5 * 60 * 1000

/-- The object spread `{ ...cache.itemsByType, [type]: arr }`
(recommend.js line 26): an existing key keeps its position with the new
value, a new key is appended. -/
def setKey (l : List (String × List EmbItem)) (k : String) (v : List EmbItem) :
    List (String × List EmbItem) :=
  match l with
  | [] => [(k, v)]
  | (k', v') :: t => if k' = k then (k, v) :: t else (k', v') :: setKey t k v

/-- One child of the RTDB snapshot (recommend.js lines 19–23).  `embedding =
none` models a record whose `embedding` field is absent or not an array
(`Array.isArray(d.embedding)` false). -/
structure DbChild where
  key : String
  embedding : Option (List JsNum)
  deriving DecidableEq, Repr

/-- The filtering in the snapshot walk (recommend.js lines 18–24): keep
exactly the children carrying an array `embedding`. -/
def loadedItems (children : List DbChild) : List EmbItem :=
  children.filterMap fun c => c.embedding.map fun e => ⟨c.key, e⟩

/-- Outcome of one `fetchItems` call: the returned (or failed) value, the
cache state afterwards, and whether the loader (the RTDB read on line 17)
was invoked. -/
structure FetchResult where
  result : Except Unit (List EmbItem)
  state : CacheState
  invokedLoader : Bool
  deriving Repr

/-- The miss path of `fetchItems` (recommend.js lines 16–30): await the
snapshot, filter it, replace the mapping entry for `type` while keeping all
other entries, set `lastFetch = now`.  A failed read throws before the
`cache = ...` assignment, leaving the cache untouched. -/
def fetchMiss (st : CacheState) (type : String) (now : ℕ)
    (snap : Except Unit (List DbChild)) : FetchResult :=
  match snap with
  | .error e => ⟨.error e, st, true⟩
  | .ok children =>
    let arr := loadedItems children
    ⟨.ok arr, ⟨setKey st.itemsByType type arr, now⟩, true⟩

/-- `fetchItems` (recommend.js lines 10–31).  The hit test on line 12 is
`cache.itemsByType[type] && (now - cache.lastFetch) < CACHE_TTL`: the
stored value is an array, which is truthy even when empty, so presence of
the key is what the first conjunct tests.  `now` is `Date.now()` and `snap`
is the outcome of the external RTDB read, supplied as data. -/
def fetchItems (st : CacheState) (type : String) (now : ℕ)
    (snap : Except Unit (List DbChild)) : FetchResult :=
  match st.itemsByType.lookup type with
  | some items =>
    if now - st.lastFetch < CACHE_TTL then ⟨.ok items, st, false⟩
    else fetchMiss st type now snap
  | none => fetchMiss st type now snap

/-- The user's preference record `users/{uid}/preferences` as consumed by
the prompt builder (recommend.js lines 103–112): a field is `some` exactly
when it is present and an array. -/
structure UserPrefs where
  pets : Option (List String)
  articles : Option (List String)
  deriving Repr

/-- Body of an HTTP response from the handler. -/
inductive ResBody where
  | recs : List String → ResBody
  | err : String → ResBody
  deriving DecidableEq, Repr

/-- Outcome of one handler run: HTTP status, body, and the cache state
afterwards. -/
structure HandlerResult where
  status : ℕ
  body : ResBody
  state : CacheState
  deriving Repr

/-- The prompt construction (recommend.js lines 102–112). -/
def buildPrompt (type : String) (prefs : UserPrefs) : String :=
  let p0 := "Recommend me 5 " ++ type
  let p1 :=
    match prefs.pets with
    | some l =>
      if type = "pets" ∧ l ≠ [] then p0 ++ " (species: " ++ String.intercalate ", " l ++ ")"
      else p0
    | none => p0
  match prefs.articles with
  | some l =>
    if type = "articles" ∧ l ≠ [] then p1 ++ " (topics: " ++ String.intercalate ", " l ++ ")"
    else p1
  | none => p1

/-- The handler from the type check onward (recommend.js lines 79–152).
Steps 1–3 (method and auth checks) precede it and touch neither the cache
nor the pipeline.  The three external effects — the preference read, the
RTDB snapshot and the embedding call — enter as data: `prefsRes`, `snap`
and `embed`.  Any of them failing inside the `try` block lands in the
`catch`, which answers `500` with the single opaque body
`Internal server error` (recommend.js lines 149–152). -/
def handlerPipeline (type : String) (prefsRes : Except Unit UserPrefs)
    (st : CacheState) (now : ℕ) (snap : Except Unit (List DbChild))
    (embed : String → Except Unit (List JsNum)) : HandlerResult :=
  if type ≠ "pets" ∧ type ≠ "articles" then
    ⟨400, .err "Invalid type; must be \"pets\" or \"articles\"", st⟩
  else
    match prefsRes with
    | .error _ => ⟨500, .err "Internal server error", st⟩
    | .ok prefs =>
      let fr := fetchItems st type now snap
      match fr.result with
      | .error _ => ⟨500, .err "Internal server error", fr.state⟩
      | .ok items =>
        match embed (buildPrompt type prefs) with
        | .error _ => ⟨500, .err "Internal server error", fr.state⟩
        | .ok qEmb => ⟨200, .recs (recommendations qEmb items), fr.state⟩

/-- `x` may lawfully stand (weakly) before `y` under the sort comparator. -/
def sortRel (x y : Scored) : Prop := sortCompare x y ≤ 0

lemma sortCompare_swap (x y : Scored) : sortCompare y x = -sortCompare x y := by
  cases hx : x.score <;> cases hy : y.score <;>
    simp [sortCompare, jsSub, hx, hy]

lemma perm_insertScored (x : Scored) (l : List Scored) :
    (insertScored x l).Perm (x :: l) := by
  induction l with
  | nil => exact List.Perm.refl _
  | cons y ys ih =>
    simp only [insertScored]
    by_cases h : sortCompare x y ≤ 0
    · rw [if_pos h]
    · rw [if_neg h]
      exact (ih.cons y).trans (List.Perm.swap x y ys)

lemma perm_sortByScoreDesc (l : List Scored) : (sortByScoreDesc l).Perm l := by
  induction l with
  | nil => exact List.Perm.refl _
  | cons x xs ih =>
    exact (perm_insertScored x (sortByScoreDesc xs)).trans (ih.cons x)

lemma length_sortByScoreDesc (l : List Scored) :
    (sortByScoreDesc l).length = l.length :=
  (perm_sortByScoreDesc l).length_eq

lemma head?_insertScored (x : Scored) (l : List Scored) :
    (insertScored x l).head? = some x ∨ (insertScored x l).head? = l.head? := by
  cases l with
  | nil => left; rfl
  | cons y ys =>
    simp only [insertScored]
    by_cases h : sortCompare x y ≤ 0
    · rw [if_pos h]; left; rfl
    · rw [if_neg h]; right; rfl

lemma chain'_insertScored (x : Scored) :
    ∀ l : List Scored, List.Chain' sortRel l →
      List.Chain' sortRel (insertScored x l) := by
  intro l
  induction l with
  | nil => intro _; simp [insertScored, List.chain'_singleton]
  | cons y ys ih =>
    intro h
    simp only [insertScored]
    by_cases hxy : sortCompare x y ≤ 0
    · rw [if_pos hxy]
      exact List.chain'_cons.2 ⟨hxy, h⟩
    · rw [if_neg hxy]
      refine List.chain'_cons'.2 ⟨?_, ih h.tail⟩
      intro z hz
      rcases head?_insertScored x ys with hh | hh
      · have hzx : z = x := by
          rw [hh] at hz
          exact (Option.mem_some_iff.1 hz).symm
        subst hzx
        show sortCompare y z ≤ 0
        rw [sortCompare_swap]
        exact neg_nonpos.2 (not_le.1 hxy).le
      · exact (List.chain'_cons'.1 h).1 z (hh ▸ hz)

lemma chain'_sortByScoreDesc (l : List Scored) :
    List.Chain' sortRel (sortByScoreDesc l) := by
  induction l with
  | nil => simp [sortByScoreDesc]
  | cons x xs ih => exact chain'_insertScored x _ ih

lemma chain'_imp_of_mem {α : Type} {R S : α → α → Prop} :
    ∀ l : List α, (∀ x ∈ l, ∀ y ∈ l, R x y → S x y) →
      List.Chain' R l → List.Chain' S l := by
  intro l
  induction l with
  | nil => intro _ _; exact List.chain'_nil
  | cons a t ih =>
    intro h hc
    cases t with
    | nil => exact List.chain'_singleton a
    | cons b t' =>
      rw [List.chain'_cons] at hc ⊢
      refine ⟨h a (by simp) b (by simp) hc.1, ih ?_ hc.2⟩
      intro x hx y hy hr
      exact h x (List.mem_cons_of_mem a hx) y (List.mem_cons_of_mem a hy) hr

lemma mem_sortByScoreDesc {z : Scored} {l : List Scored} :
    z ∈ sortByScoreDesc l ↔ z ∈ l :=
  (perm_sortByScoreDesc l).mem_iff

lemma filter_insertScored_of_neg (x : Scored) (p : Scored → Bool)
    (hx : p x = false) :
    ∀ l : List Scored, (insertScored x l).filter p = l.filter p := by
  intro l
  induction l with
  | nil => simp [insertScored, hx]
  | cons y ys ih =>
    simp only [insertScored]
    by_cases h : sortCompare x y ≤ 0
    · rw [if_pos h]
      simp [List.filter_cons, hx]
    · rw [if_neg h]
      simp [List.filter_cons, ih]

lemma filter_insertScored_of_tie (x : Scored) (s : ℚ)
    (hx : x.score = JsNum.val s) :
    ∀ l : List Scored,
      (insertScored x l).filter (fun z => z.score == JsNum.val s) =
        x :: l.filter (fun z => z.score == JsNum.val s) := by
  intro l
  induction l with
  | nil => simp [insertScored, hx]
  | cons y ys ih =>
    simp only [insertScored]
    by_cases h : sortCompare x y ≤ 0
    · rw [if_pos h]
      simp [List.filter_cons, hx]
    · rw [if_neg h]
      have hy : y.score ≠ JsNum.val s := by
        intro hy
        exact h (by simp [sortCompare, jsSub, hx, hy])
      simp [List.filter_cons, ih, hy]

lemma filter_sortByScoreDesc (l : List Scored) (s : ℚ) :
    (sortByScoreDesc l).filter (fun z => z.score == JsNum.val s) =
      l.filter (fun z => z.score == JsNum.val s) := by
  induction l with
  | nil => rfl
  | cons x xs ih =>
    simp only [sortByScoreDesc]
    by_cases hx : x.score = JsNum.val s
    · rw [filter_insertScored_of_tie x s hx _, ih]
      simp [List.filter_cons, hx]
    · have hx' : (fun z => z.score == JsNum.val s) x = false := by simp [hx]
      rw [filter_insertScored_of_neg x _ hx' _, ih]
      simp [List.filter_cons, hx]

lemma jsAdd_nan_left (z : JsNum) : jsAdd .nan z = .nan := by cases z <;> rfl

lemma jsAdd_nan_right (z : JsNum) : jsAdd z .nan = .nan := by cases z <;> rfl

lemma jsMul_nan_right (z : JsNum) : jsMul z .nan = .nan := by cases z <;> rfl

lemma jsDiv_nan_left (z : JsNum) : jsDiv .nan z = .nan := by cases z <;> rfl

lemma cosineLoop_nan_dot (a : List JsNum) :
    ∀ (bs : List JsNum) (magA magB : JsNum),
      (cosineLoop a bs .nan magA magB).1 = .nan := by
  induction a with
  | nil => intro bs magA magB; rfl
  | cons x xs ih =>
    intro bs magA magB
    simp only [cosineLoop, jsAdd_nan_left]
    exact ih _ _ _

lemma cosineLoop_longer (b : List ℚ) :
    ∀ (a : List ℚ), b.length < a.length → ∀ (d mA mB : ℚ),
      (cosineLoop (a.map JsNum.val) (b.map JsNum.val)
        (.val d) (.val mA) (.val mB)).1 = JsNum.nan := by
  induction b with
  | nil =>
    intro a hlen d mA mB
    cases a with
    | nil => simp at hlen
    | cons x xs =>
      simp only [List.map_nil, List.map_cons, cosineLoop, List.headD,
        List.tail_nil, jsMul_nan_right, jsAdd_nan_right]
      exact cosineLoop_nan_dot _ _ _ _
  | cons q bs ih =>
    intro a hlen d mA mB
    cases a with
    | nil => simp at hlen
    | cons x xs =>
      simp only [List.map_cons, cosineLoop, List.headD, List.tail_cons, jsMul, jsAdd]
      exact ih xs (by simpa using hlen) _ _ _

lemma cosine_longer (a b : List ℚ) (h : b.length < a.length) :
    cosine (a.map JsNum.val) (b.map JsNum.val) = JsNum.nan := by
  simp only [cosine]
  rw [cosineLoop_longer b a h 0 0 0, jsDiv_nan_left]

lemma cosineLoop_take (a : List JsNum) :
    ∀ (bs : List JsNum) (dot magA magB : JsNum),
      cosineLoop a bs dot magA magB = cosineLoop a (bs.take a.length) dot magA magB := by
  induction a with
  | nil => intro bs d mA mB; rfl
  | cons x xs ih =>
    intro bs d mA mB
    cases bs with
    | nil => rfl
    | cons y ys =>
      simp only [cosineLoop, List.length_cons, List.take_succ_cons,
        List.headD, List.tail_cons]
      exact ih ys _ _ _

lemma cosine_take (a b : List JsNum) : cosine a b = cosine a (b.take a.length) := by
  simp only [cosine]
  rw [cosineLoop_take a b]

lemma cosineLoop_zeroQuery (b : List ℚ) :
    ∀ (d mA mB : ℚ), ∃ mB' : ℚ,
      cosineLoop (List.replicate b.length (JsNum.val 0)) (b.map JsNum.val)
        (.val d) (.val mA) (.val mB) = (.val d, .val mA, .val mB') := by
  induction b with
  | nil => intro d mA mB; exact ⟨mB, rfl⟩
  | cons q bs ih =>
    intro d mA mB
    simp only [List.length_cons, List.replicate_succ, List.map_cons, cosineLoop,
      List.headD, List.tail_cons, jsMul, jsAdd]
    obtain ⟨m', hm⟩ := ih (d + 0 * q) (mA + 0 * 0) (mB + q * q)
    refine ⟨m', ?_⟩
    rw [hm]
    have e1 : d + 0 * q = d := by ring
    have e2 : mA + 0 * 0 = mA := by ring
    rw [e1, e2]

lemma jsOr_zeroMul (z : JsNum) : jsOr (jsMul (JsNum.val 0) z) tinyDen = tinyDen := by
  cases z with
  | nan => rfl
  | val r => simp [jsMul, jsOr, jsTruthy]

lemma lookup_setKey_self (k : String) (v : List EmbItem) :
    ∀ l : List (String × List EmbItem), (setKey l k v).lookup k = some v := by
  intro l
  induction l with
  | nil => simp [setKey, List.lookup]
  | cons kv t ih =>
    obtain ⟨k', v'⟩ := kv
    simp only [setKey]
    by_cases h : k' = k
    · rw [if_pos h]
      simp [List.lookup]
    · rw [if_neg h]
      have hke : (k == k') = false := beq_eq_false_iff_ne.2 (Ne.symm h)
      simp [List.lookup, hke, ih]

lemma lookup_setKey_of_ne (k a : String) (v : List EmbItem) (hne : a ≠ k) :
    ∀ l : List (String × List EmbItem), (setKey l k v).lookup a = l.lookup a := by
  intro l
  induction l with
  | nil =>
    have hak : (a == k) = false := beq_eq_false_iff_ne.2 hne
    simp [setKey, List.lookup, hak]
  | cons kv t ih =>
    obtain ⟨k', v'⟩ := kv
    simp only [setKey]
    by_cases h : k' = k
    · subst h
      rw [if_pos rfl]
      have hak : (a == k') = false := beq_eq_false_iff_ne.2 hne
      simp [List.lookup, hak]
    · rw [if_neg h]
      by_cases h2 : a = k'
      · subst h2
        simp [List.lookup]
      · have hak : (a == k') = false := beq_eq_false_iff_ne.2 h2
        simp [List.lookup, hak, ih]

lemma fetchItems_hit (st : CacheState) (key : String) (now : ℕ)
    (snap : Except Unit (List DbChild)) (items : List EmbItem)
    (hl : st.itemsByType.lookup key = some items)
    (hfresh : now - st.lastFetch < CACHE_TTL) :
    fetchItems st key now snap = ⟨.ok items, st, false⟩ := by
  simp [fetchItems, hl, hfresh]

lemma fetchItems_missPath (st : CacheState) (key : String) (now : ℕ)
    (snap : Except Unit (List DbChild))
    (hmiss : st.itemsByType.lookup key = none ∨ CACHE_TTL ≤ now - st.lastFetch) :
    fetchItems st key now snap = fetchMiss st key now snap := by
  rcases hmiss with hnone | hstale
  · simp [fetchItems, hnone]
  · cases hl : st.itemsByType.lookup key with
    | none => simp [fetchItems, hl]
    | some items =>
      simp only [fetchItems, hl]
      rw [if_neg (not_lt.2 hstale)]

/-- C1, counterexample: for the query `[1, 0]` the ranker returns the id of
the one-dimensional candidate `[1]` as well — a candidate of mismatching
dimension is neither excluded from scoring nor from the returned list. -/
theorem c1_counterexample :
    "b" ∈ recommendations [JsNum.val 1, JsNum.val 0]
      [⟨"a", [JsNum.val 1, JsNum.val 0]⟩, ⟨"b", [JsNum.val 1]⟩] ∧
    (⟨"b", [JsNum.val 1]⟩ : EmbItem).embedding.length ≠
      ([JsNum.val 1, JsNum.val 0] : List JsNum).length := by
  with_unfolding_all decide

/-- C1, amended: the ranking step applies `cosine` to every candidate with
no dimension pre-filter, and (when at most five candidates are in the pool)
the returned identifier list is a permutation of all the pool's ids,
dimension mismatches included.  No per-candidate error is raised:
`cosine` is total, a mismatch merely yields a `NaN` (or truncated) score. -/
theorem c1_no_dimension_filter (qEmb : List JsNum) (items : List EmbItem)
    (hlen : items.length ≤ 5) :
    (recommendations qEmb items).Perm (items.map EmbItem.id) := by
  have hmap : (scoredList qEmb items).map Scored.id = items.map EmbItem.id := by
    simp [scoredList, List.map_map]
  have hlen' : (sortByScoreDesc (scoredList qEmb items)).length ≤ 5 := by
    rw [length_sortByScoreDesc]
    simpa [scoredList] using hlen
  unfold recommendations
  rw [List.take_of_length_le hlen']
  exact hmap ▸ (perm_sortByScoreDesc _).map Scored.id

/-- Witness for `c1_no_dimension_filter` at a concrete pool containing a
dimension-mismatched candidate. -/
theorem c1_no_dimension_filter_witness :
    ([⟨"a", [JsNum.val 1, JsNum.val 0]⟩,
        (⟨"b", [JsNum.val 1]⟩ : EmbItem)] : List EmbItem).length ≤ 5 ∧
    (recommendations [JsNum.val 1, JsNum.val 0]
        [⟨"a", [JsNum.val 1, JsNum.val 0]⟩, ⟨"b", [JsNum.val 1]⟩]).Perm
      (([⟨"a", [JsNum.val 1, JsNum.val 0]⟩,
        ⟨"b", [JsNum.val 1]⟩] : List EmbItem).map EmbItem.id) :=
  ⟨by decide, c1_no_dimension_filter _ _ (by decide)⟩

/-- C2, counterexample: `cosine([3], [3, 4])` raises nothing and returns
`1` — exactly the value of the silently truncated computation
`cosine([3], [3])` — instead of failing fast with `DimensionMismatch`. -/
theorem c2_counterexample :
    cosine [JsNum.val 3] [JsNum.val 3, JsNum.val 4] = JsNum.val 1 ∧
    cosine [JsNum.val 3] [JsNum.val 3] = JsNum.val 1 := by
  with_unfolding_all decide

/-- C2, amended: `cosine` performs no length check at all.  It iterates
over the first argument's indices, so a longer `b` is silently truncated to
`a.length` entries, and a shorter (numeric-valued) `b` contaminates the
accumulators through out-of-range reads and yields `NaN`.  No error is ever
raised in either case. -/
theorem c2_no_length_check :
    (∀ a b : List JsNum, cosine a b = cosine a (b.take a.length)) ∧
    (∀ a b : List ℚ, b.length < a.length →
      cosine (a.map JsNum.val) (b.map JsNum.val) = JsNum.nan) :=
  ⟨cosine_take, fun a b h => cosine_longer a b h⟩

/-- Witness for `c2_no_length_check`: truncation observed at
`a = [3], b = [3, 4]` and the `NaN` outcome at `a = [3, 4], b = []`. -/
theorem c2_no_length_check_witness :
    cosine [JsNum.val 3] [JsNum.val 3, JsNum.val 4] =
      cosine [JsNum.val 3] ([JsNum.val 3, JsNum.val 4].take 1) ∧
    ([] : List ℚ).length < ([3, 4] : List ℚ).length ∧
    cosine (([3, 4] : List ℚ).map JsNum.val) (([] : List ℚ).map JsNum.val) =
      JsNum.nan :=
  ⟨c2_no_length_check.1 [JsNum.val 3] [JsNum.val 3, JsNum.val 4], by decide,
    c2_no_length_check.2 [3, 4] [] (by decide)⟩

/-- C3: a `fetchItems` call finding the key present with
`now - lastFetch < CACHE_TTL` returns the stored sequence unchanged without
invoking the loader, and a call once the window has elapsed
(`CACHE_TTL ≤ now - lastFetch`) does invoke the loader. -/
theorem c3_ttl_hit_and_expiry (st : CacheState) (key : String) (now : ℕ)
    (snap : Except Unit (List DbChild)) :
    (∀ items, st.itemsByType.lookup key = some items →
      now - st.lastFetch < CACHE_TTL →
      fetchItems st key now snap = ⟨.ok items, st, false⟩) ∧
    (CACHE_TTL ≤ now - st.lastFetch →
      (fetchItems st key now snap).invokedLoader = true) := by
  constructor
  · intro items hl hf
    exact fetchItems_hit st key now snap items hl hf
  · intro hstale
    rw [fetchItems_missPath st key now snap (Or.inr hstale)]
    cases snap <;> rfl

/-- Witness for `c3_ttl_hit_and_expiry`: a hit at 299 999 ms and a
loader-invoking refresh at 300 000 ms, for the same cached key. -/
theorem c3_ttl_hit_and_expiry_witness :
    fetchItems ⟨[("pets", [⟨"a", [JsNum.val 1]⟩])], 0⟩ "pets" 299999 (.ok []) =
      ⟨.ok [⟨"a", [JsNum.val 1]⟩], ⟨[("pets", [⟨"a", [JsNum.val 1]⟩])], 0⟩, false⟩ ∧
    (fetchItems ⟨[("pets", [⟨"a", [JsNum.val 1]⟩])], 0⟩ "pets" 300000
      (.ok [])).invokedLoader = true :=
  ⟨(c3_ttl_hit_and_expiry _ _ _ _).1 _ (by with_unfolding_all decide) (by decide),
    (c3_ttl_hit_and_expiry _ _ _ _).2 (by decide)⟩

/-- C4: a miss-triggered refresh for `keyB` at time `t` sets the single
shared `lastFetch` to `t`, so every key present in the refreshed cache —
however long ago its own entries were loaded — is fresh for a full window
from `t`: a `fetchItems` for any such `keyA` before `t + CACHE_TTL` is a
hit that does not invoke the loader. -/
theorem c4_shared_clock (st : CacheState) (keyB keyA : String) (t tq : ℕ)
    (children : List DbChild) (snap' : Except Unit (List DbChild))
    (itemsA : List EmbItem)
    (hmiss : st.itemsByType.lookup keyB = none ∨ CACHE_TTL ≤ t - st.lastFetch) :
    (fetchItems st keyB t (.ok children)).state.lastFetch = t ∧
    ((fetchItems st keyB t (.ok children)).state.itemsByType.lookup keyA =
        some itemsA →
      tq - t < CACHE_TTL →
      fetchItems (fetchItems st keyB t (.ok children)).state keyA tq snap' =
        ⟨.ok itemsA, (fetchItems st keyB t (.ok children)).state, false⟩) := by
  rw [fetchItems_missPath st keyB t _ hmiss]
  constructor
  · rfl
  · intro hA hf
    exact fetchItems_hit _ keyA tq snap' itemsA hA hf

/-- Witness for `c4_shared_clock`: key `pets` was loaded at time 0; a miss
refresh of `articles` at 300 000 makes `pets` a hit again at 599 999. -/
theorem c4_shared_clock_witness :
    (fetchItems ⟨[("pets", [⟨"a", [JsNum.val 1]⟩])], 0⟩ "articles" 300000
        (.ok [⟨"b", some [JsNum.val 2]⟩])).state.lastFetch = 300000 ∧
    fetchItems
        (fetchItems ⟨[("pets", [⟨"a", [JsNum.val 1]⟩])], 0⟩ "articles" 300000
          (.ok [⟨"b", some [JsNum.val 2]⟩])).state "pets" 599999 (.ok []) =
      ⟨.ok [⟨"a", [JsNum.val 1]⟩],
        (fetchItems ⟨[("pets", [⟨"a", [JsNum.val 1]⟩])], 0⟩ "articles" 300000
          (.ok [⟨"b", some [JsNum.val 2]⟩])).state, false⟩ := by
  have h := c4_shared_clock ⟨[("pets", [⟨"a", [JsNum.val 1]⟩])], 0⟩
    "articles" "pets" 300000 599999 [⟨"b", some [JsNum.val 2]⟩] (.ok [])
    [⟨"a", [JsNum.val 1]⟩] (Or.inl (by with_unfolding_all decide))
  exact ⟨h.1, h.2 (by with_unfolding_all decide) (by decide)⟩

/-- C5, counterexample: for query `[1, 0]` and a pool holding a single
dimension-mismatched candidate there are zero valid candidates, yet the
ranking step returns one identifier, not `min(5, 0) = 0`. -/
theorem c5_counterexample :
    (recommendations [JsNum.val 1, JsNum.val 0] [⟨"m", [JsNum.val 2]⟩]).length ≠
      min 5 (validCandidateCount [JsNum.val 1, JsNum.val 0] [⟨"m", [JsNum.val 2]⟩]) ∧
    (recommendations [JsNum.val 1, JsNum.val 0] [⟨"m", [JsNum.val 2]⟩]).length = 1 ∧
    validCandidateCount [JsNum.val 1, JsNum.val 0] [⟨"m", [JsNum.val 2]⟩] = 0 := by
  with_unfolding_all decide

/-- C5, amended: the ranking step returns exactly
`min(5, number of candidates in the pool)` identifiers — the count is over
the whole pool, dimension-mismatched candidates included, because no
validity filter exists. -/
theorem c5_output_length (qEmb : List JsNum) (items : List EmbItem) :
    (recommendations qEmb items).length = min 5 items.length := by
  simp [recommendations, List.length_take, length_sortByScoreDesc, scoredList]

/-- C6, counterexample: for query `[3, 4]`, the pool
`x = [3, 4], y = [5]` yields scores `1` and `NaN`; both ids are returned,
and under JS comparison (`NaN` incomparable) the two scores are
non-increasing in neither order, so the output is not ordered by
non-increasing cosine score. -/
theorem c6_counterexample :
    recommendations [JsNum.val 3, JsNum.val 4]
      [⟨"x", [JsNum.val 3, JsNum.val 4]⟩, ⟨"y", [JsNum.val 5]⟩] = ["x", "y"] ∧
    cosine [JsNum.val 3, JsNum.val 4] [JsNum.val 3, JsNum.val 4] = JsNum.val 1 ∧
    cosine [JsNum.val 3, JsNum.val 4] [JsNum.val 5] = JsNum.nan ∧
    jsLeb (cosine [JsNum.val 3, JsNum.val 4] [JsNum.val 5])
      (cosine [JsNum.val 3, JsNum.val 4] [JsNum.val 3, JsNum.val 4]) = false ∧
    jsLeb (cosine [JsNum.val 3, JsNum.val 4] [JsNum.val 3, JsNum.val 4])
      (cosine [JsNum.val 3, JsNum.val 4] [JsNum.val 5]) = false := by
  with_unfolding_all decide

/-- C6, amended: restricted to pools in which every candidate's score is an
actual number (no `NaN`).  There the comparator
`(a, b) => b.score - a.score` is consistent, ES2019 determines the stable
sort result uniquely, and the model is exact: the returned identifiers are
the id-image of the sorted scored list truncated to five, every adjacent
pair of returned scores is non-increasing under JS comparison, and
candidates with exactly equal scores keep their input order (the filter to
any equal-score class is preserved by the sort).  When a `NaN` score is
present the comparator is inconsistent and ECMAScript leaves the order
implementation-defined — only a permutation is guaranteed (see the
counterexample and C1's permutation theorem). -/
theorem c6_order_and_stability (qEmb : List JsNum) (items : List EmbItem)
    (hnum : ∀ z ∈ scoredList qEmb items, z.score ≠ JsNum.nan) :
    recommendations qEmb items =
      ((sortByScoreDesc (scoredList qEmb items)).take 5).map Scored.id ∧
    List.Chain' (fun x y => jsLeb y.score x.score = true)
      ((sortByScoreDesc (scoredList qEmb items)).take 5) ∧
    ∀ s : ℚ,
      (sortByScoreDesc (scoredList qEmb items)).filter
          (fun z => z.score == JsNum.val s) =
        (scoredList qEmb items).filter (fun z => z.score == JsNum.val s) := by
  refine ⟨rfl, ?_, fun s => filter_sortByScoreDesc _ s⟩
  have hs : List.Chain' (fun x y => jsLeb y.score x.score = true)
      (sortByScoreDesc (scoredList qEmb items)) := by
    refine chain'_imp_of_mem _ ?_ (chain'_sortByScoreDesc (scoredList qEmb items))
    intro x hx y hy hr
    have hxn := hnum x (mem_sortByScoreDesc.1 hx)
    have hyn := hnum y (mem_sortByScoreDesc.1 hy)
    cases hxs : x.score with
    | nan => exact absurd hxs hxn
    | val p =>
      cases hys : y.score with
      | nan => exact absurd hys hyn
      | val q =>
        have hqp : q - p ≤ 0 := by
          simpa [sortRel, sortCompare, jsSub, hxs, hys] using hr
        simp [jsLeb]
        linarith
  exact hs.take 5

/-- Witness for `c6_order_and_stability`: query `[3, 4]` against an
all-numeric four-candidate pool with scores `0`, `24/25`, `1`, `24/25`;
the output scores are non-increasing and the two exactly tied candidates
`z` and `w` keep their input order. -/
theorem c6_order_and_stability_witness :
    List.Chain' (fun x y => jsLeb y.score x.score = true)
      ((sortByScoreDesc (scoredList [JsNum.val 3, JsNum.val 4]
        [⟨"y", [JsNum.val 0, JsNum.val 0]⟩, ⟨"z", [JsNum.val 8, JsNum.val 6]⟩,
          ⟨"x", [JsNum.val 3, JsNum.val 4]⟩,
          ⟨"w", [JsNum.val 4, JsNum.val 3]⟩])).take 5) ∧
    (sortByScoreDesc (scoredList [JsNum.val 3, JsNum.val 4]
        [⟨"y", [JsNum.val 0, JsNum.val 0]⟩, ⟨"z", [JsNum.val 8, JsNum.val 6]⟩,
          ⟨"x", [JsNum.val 3, JsNum.val 4]⟩,
          ⟨"w", [JsNum.val 4, JsNum.val 3]⟩])).filter
        (fun z => z.score == JsNum.val (24 / 25)) =
      (scoredList [JsNum.val 3, JsNum.val 4]
        [⟨"y", [JsNum.val 0, JsNum.val 0]⟩, ⟨"z", [JsNum.val 8, JsNum.val 6]⟩,
          ⟨"x", [JsNum.val 3, JsNum.val 4]⟩,
          ⟨"w", [JsNum.val 4, JsNum.val 3]⟩]).filter
        (fun z => z.score == JsNum.val (24 / 25)) := by
  have h := c6_order_and_stability [JsNum.val 3, JsNum.val 4]
    [⟨"y", [JsNum.val 0, JsNum.val 0]⟩, ⟨"z", [JsNum.val 8, JsNum.val 6]⟩,
      ⟨"x", [JsNum.val 3, JsNum.val 4]⟩, ⟨"w", [JsNum.val 4, JsNum.val 3]⟩]
    (by with_unfolding_all decide)
  exact ⟨h.2.1, h.2.2 (24 / 25)⟩

/-- C7: when the loader fails on a miss, the cache (pools mapping and
`lastFetch` alike) is left exactly as it was, the failure propagates out of
`fetchItems`, and the handler collapses it into the single opaque
`500 Internal server error` response. -/
theorem c7_loader_failure (st : CacheState) (key : String) (now : ℕ)
    (prefs : UserPrefs) (embed : String → Except Unit (List JsNum))
    (hkey : key = "pets" ∨ key = "articles")
    (hmiss : st.itemsByType.lookup key = none ∨ CACHE_TTL ≤ now - st.lastFetch) :
    (fetchItems st key now (.error ())).result = .error () ∧
    (fetchItems st key now (.error ())).state = st ∧
    handlerPipeline key (.ok prefs) st now (.error ()) embed =
      ⟨500, .err "Internal server error", st⟩ := by
  have hfetch : fetchItems st key now (.error ()) = ⟨.error (), st, true⟩ := by
    rw [fetchItems_missPath st key now _ hmiss]
    rfl
  have hvalid : ¬ (key ≠ "pets" ∧ key ≠ "articles") := by
    rintro ⟨h1, h2⟩
    rcases hkey with h | h
    · exact h1 h
    · exact h2 h
  refine ⟨by rw [hfetch], by rw [hfetch], ?_⟩
  simp only [handlerPipeline]
  rw [if_neg hvalid, hfetch]

/-- Witness for `c7_loader_failure`: an empty cache, a `pets` request, and
a failing RTDB read. -/
theorem c7_loader_failure_witness :
    (fetchItems ⟨[], 0⟩ "pets" 0 (.error ())).result = .error () ∧
    (fetchItems ⟨[], 0⟩ "pets" 0 (.error ())).state = ⟨[], 0⟩ ∧
    handlerPipeline "pets" (.ok ⟨none, none⟩) ⟨[], 0⟩ 0 (.error ())
        (fun _ => .ok []) = ⟨500, .err "Internal server error", ⟨[], 0⟩⟩ :=
  c7_loader_failure ⟨[], 0⟩ "pets" 0 ⟨none, none⟩ (fun _ => .ok [])
    (Or.inl rfl) (Or.inl rfl)

/-- C8: scoring any rational-valued vector against the all-zero vector of
its length returns the finite number `0` and never throws: the dot product
is `0` and the zero denominator is replaced by the `1e-12` fallback, so the
division is guarded. -/
theorem c8_zero_vector (b : List ℚ) :
    cosine (List.replicate b.length (JsNum.val 0)) (b.map JsNum.val) =
      JsNum.val 0 ∧
    jsOr (jsMul
        (jsSqrt (cosineLoop (List.replicate b.length (JsNum.val 0))
          (b.map JsNum.val) (JsNum.val 0) (JsNum.val 0) (JsNum.val 0)).2.1)
        (jsSqrt (cosineLoop (List.replicate b.length (JsNum.val 0))
          (b.map JsNum.val) (JsNum.val 0) (JsNum.val 0) (JsNum.val 0)).2.2))
      tinyDen = tinyDen := by
  obtain ⟨m', hm⟩ := cosineLoop_zeroQuery b 0 0 0
  have h0 : jsSqrt (JsNum.val 0) = JsNum.val 0 := by with_unfolding_all decide
  constructor
  · simp only [cosine]
    rw [hm]
    simp only [h0, jsOr_zeroMul]
    with_unfolding_all decide
  · rw [hm]
    simp only [h0, jsOr_zeroMul]

/-- C9: a miss-triggered refresh for `key` changes only that key's pools
entry and the shared `lastFetch`; every other key's stored sequence is
looked up unchanged in the new cache snapshot. -/
theorem c9_refresh_frame (st : CacheState) (key otherKey : String) (now : ℕ)
    (children : List DbChild)
    (hmiss : st.itemsByType.lookup key = none ∨ CACHE_TTL ≤ now - st.lastFetch)
    (hne : otherKey ≠ key) :
    (fetchItems st key now (.ok children)).state.itemsByType.lookup otherKey =
      st.itemsByType.lookup otherKey ∧
    (fetchItems st key now (.ok children)).state.itemsByType.lookup key =
      some (loadedItems children) ∧
    (fetchItems st key now (.ok children)).state.lastFetch = now := by
  rw [fetchItems_missPath st key now _ hmiss]
  refine ⟨?_, ?_, rfl⟩
  · exact lookup_setKey_of_ne key otherKey _ hne _
  · exact lookup_setKey_self key _ _

/-- Witness for `c9_refresh_frame`: refreshing `articles` preserves the
cached `pets` entry byte for byte. -/
theorem c9_refresh_frame_witness :
    (fetchItems ⟨[("pets", [⟨"a", [JsNum.val 1]⟩])], 0⟩ "articles" 7
        (.ok [⟨"b", some [JsNum.val 2]⟩])).state.itemsByType.lookup "pets" =
      ([("pets", [⟨"a", [JsNum.val 1]⟩])] :
        List (String × List EmbItem)).lookup "pets" ∧
    (fetchItems ⟨[("pets", [⟨"a", [JsNum.val 1]⟩])], 0⟩ "articles" 7
        (.ok [⟨"b", some [JsNum.val 2]⟩])).state.itemsByType.lookup "articles" =
      some (loadedItems [⟨"b", some [JsNum.val 2]⟩]) ∧
    (fetchItems ⟨[("pets", [⟨"a", [JsNum.val 1]⟩])], 0⟩ "articles" 7
        (.ok [⟨"b", some [JsNum.val 2]⟩])).state.lastFetch = 7 :=
  c9_refresh_frame ⟨[("pets", [⟨"a", [JsNum.val 1]⟩])], 0⟩ "articles" "pets" 7
    [⟨"b", some [JsNum.val 2]⟩] (Or.inl (by with_unfolding_all decide))
    (by decide)

/-- C10: a loader that returns an empty sequence has that empty sequence
stored like any other result, and a subsequent `fetchItems` for the same
key within the TTL window is a cache hit returning `[]` without invoking
the loader — an empty cached pool is not treated as a miss, because an
empty array is truthy in JS. -/
theorem c10_empty_pool_is_hit (st : CacheState) (key : String) (t tq : ℕ)
    (children : List DbChild) (snap' : Except Unit (List DbChild))
    (hmiss : st.itemsByType.lookup key = none ∨ CACHE_TTL ≤ t - st.lastFetch)
    (hempty : loadedItems children = [])
    (hfresh : tq - t < CACHE_TTL) :
    (fetchItems st key t (.ok children)).result = .ok [] ∧
    fetchItems (fetchItems st key t (.ok children)).state key tq snap' =
      ⟨.ok [], (fetchItems st key t (.ok children)).state, false⟩ := by
  rw [fetchItems_missPath st key t _ hmiss]
  constructor
  · show Except.ok (loadedItems children) = Except.ok ([] : List EmbItem)
    rw [hempty]
  · refine fetchItems_hit _ key tq snap' [] ?_ ?_
    · show (setKey st.itemsByType key (loadedItems children)).lookup key = some []
      rw [hempty]
      exact lookup_setKey_self key [] _
    · show tq - t < CACHE_TTL
      exact hfresh

/-- Witness for `c10_empty_pool_is_hit`: an RTDB read returning no children
caches `[]`, and the next call one millisecond later is a hit. -/
theorem c10_empty_pool_is_hit_witness :
    (fetchItems ⟨[], 0⟩ "pets" 5 (.ok [])).result = .ok [] ∧
    fetchItems (fetchItems ⟨[], 0⟩ "pets" 5 (.ok [])).state "pets" 6 (.error ()) =
      ⟨.ok [], (fetchItems ⟨[], 0⟩ "pets" 5 (.ok [])).state, false⟩ :=
  c10_empty_pool_is_hit ⟨[], 0⟩ "pets" 5 6 [] (.error ()) (Or.inl rfl) rfl
    (by decide)

end PawRecs
